import Mathlib

/-!
# JardAIn garden-planner core: a shallow embedding

This file embeds, in Lean 4, the core of the JardAIn repository that the
verified claims are about:

* the in-memory `PlantCache` and the three-tier plant resolution pipeline
  of `services/plant_service.py` (`PlantCache.get`/`store`,
  `PlantService.get_plant_info`, `PlantService.get_multiple_plants`,
  `PlantService._get_plant_from_database`,
  `PlantService._get_multiple_plants_from_database`);
* the structured-output extraction pipeline of
  `services/garden_plan_service.py` (`_extract_complete_json`,
  `_extract_and_clean_json_universal`, `_fix_common_json_issues`);
* the plan assembler `GardenPlanService.create_garden_plan` with its four
  per-section fallbacks (`_create_default_schedules`,
  `_validate_instruction_quality`, `_enhance_basic_instructions`,
  `_create_enhanced_default_instructions`, the inline layout and tips
  defaults).

Modelling conventions:

* Python `str` is modelled as `List Char` (`chars` turns a Lean string
  literal into one); `str.lower` as `List.map Char.toLower` (the texts in
  play are ASCII), `str.strip` as dropping ASCII whitespace on both ends.
* Python `datetime` instants are `Nat` seconds; `date` values are `Int`
  day indices, so `timedelta(days = n)` is `+ n`.
* Python dicts used as maps keyed by strings are association lists with
  first-match lookup and in-place replacement on update.
* `await`ed external collaborators (the SQL store, the LLM client, the
  static JSON file) are explicit parameters of the resolution pipeline
  (`ResolveEnv`); a generative call that returns `None`, an empty string,
  or raises is one `Option.none` outcome, since the source handles these
  identically (every such path is caught and discarded).
* Exceptions that the source lets escape are `Except.error` values of
  `PyError`; exceptions the source catches and converts never surface in
  the model, so functions whose Python bodies catch everything are total.
-/

set_option autoImplicit false

namespace JardAIn

/-- Turn a Lean string literal into the `List Char` the embedding works on. -/
def chars (s : String) : List Char := s.data

/-- Python `str.lower()` on the ASCII texts in play. -/
def pyLower (s : List Char) : List Char := s.map Char.toLower

/-- The ASCII whitespace Python classifies with `str.strip()` / `\s`. -/
def isPyWs (c : Char) : Bool :=
  c == ' ' || c == '\t' || c == '\n' || c == Char.ofNat 13 ||
  c == Char.ofNat 11 || c == Char.ofNat 12

/-- Python `str.strip()` (the texts in play are ASCII). -/
def pyStrip (s : List Char) : List Char :=
  ((s.dropWhile isPyWs).reverse.dropWhile isPyWs).reverse

/-- The normalized lookup key the plant service builds everywhere:
`plant_name.lower().strip()`. -/
def pyNormalize (s : List Char) : List Char := pyStrip (pyLower s)

/-- Python `", ".join` style concatenation with a separator. -/
def joinSep (sep : List Char) : List (List Char) → List Char
  | [] => []
  | [x] => x
  | x :: xs => x ++ sep ++ joinSep sep xs

/-- Decimal rendering of a `Nat`, as a Python f-string renders an int. -/
def natToChars (n : Nat) : List Char := (Nat.repr n).data

/-- Decimal rendering of an `Int`, as a Python f-string renders an int. -/
def intToChars (i : Int) : List Char :=
  if i < 0 then '-' :: natToChars i.natAbs else natToChars i.natAbs

/-- `needle` occurs as a contiguous substring of `hay` (Python `in`). -/
def listContainsSub (hay needle : List Char) : Bool :=
  match hay with
  | [] => needle.isEmpty
  | _ :: t => needle.isPrefixOf hay || listContainsSub t needle

/-- Python `value or default` for an optional numeric attribute: `None`
and `0` are both falsy, so both select the default. -/
def pyOrNat (v : Option Nat) (dflt : Nat) : Nat :=
  match v with
  | some n => if n = 0 then dflt else n
  | none => dflt

/-- Python `value or default` for an optional string attribute: `None`
and the empty string are falsy. -/
def pyOrStr (v : Option (List Char)) (dflt : List Char) : List Char :=
  match v with
  | some s => if s.isEmpty then dflt else s
  | none => dflt

/-- A Python f-string renders `None` as the text `None`. -/
def fmtOpt (v : Option (List Char)) : List Char :=
  match v with
  | some s => s
  | none => chars "None"

/-- A Python f-string rendering of an optional date; the calendar text of a
day index is abstracted to its decimal form (no claim depends on the
formatting, only on which date value is interpolated). -/
def fmtOptDate (v : Option Int) : List Char :=
  match v with
  | some d => intToChars d
  | none => chars "None"

/-- `date.strftime` (month-day rendering) abstracted to the decimal form of
the day index. -/
def fmtMonthDay (d : Int) : List Char := intToChars d

/-! ## Data model (`models/garden_plan.py`) -/

/-- `PlantInfo`: the plant entity record. `planting_depth_inches` is a
float used only inside f-strings, so it is carried as its rendered text. -/
structure PlantInfo where
  name : List Char
  scientificName : Option (List Char) := none
  plantType : List Char
  daysToHarvest : Option Nat := none
  spacingInches : Option Nat := none
  plantingDepthInches : Option (List Char) := none
  sunRequirements : Option (List Char) := none
  waterRequirements : Option (List Char) := none
  soilPhRange : Option (List Char) := none
  companionPlants : List (List Char) := []
  avoidPlantingWith : List (List Char) := []
deriving DecidableEq

/-- `LocationInfo`: the climate profile. Dates are day indices. -/
structure LocationInfo where
  zipCode : List Char
  city : Option (List Char) := none
  state : Option (List Char) := none
  usdaZone : Option (List Char) := none
  lastFrostDate : Option Int := none
  firstFrostDate : Option Int := none
  growingSeasonDays : Option Nat := none
  climateType : Option (List Char) := none
deriving DecidableEq

/-- `PlantingSchedule`. -/
structure PlantingSchedule where
  plantName : List Char
  startIndoorsDate : Option Int := none
  directSowDate : Option Int := none
  transplantDate : Option Int := none
  harvestStartDate : Option Int := none
  harvestEndDate : Option Int := none
  successionPlantingInterval : Option Nat := none
deriving DecidableEq

/-- `GrowingInstructions`, also standing for the parsed dict the LLM
produced for one plant (the validator reads the same six list fields via
`.get(key, [])`, so an absent key is an empty list). -/
structure GrowingInstructions where
  plantName : List Char
  preparationSteps : List (List Char)
  plantingSteps : List (List Char)
  careInstructions : List (List Char)
  pestManagement : List (List Char)
  harvestInstructions : List (List Char)
  storageTips : List (List Char)
deriving DecidableEq

/-- One `plant_groupings` entry of the layout dict. -/
structure PlantGrouping where
  groupName : List Char
  plants : List (List Char)
deriving DecidableEq

/-- The layout-recommendations dict shape the service assembles. -/
structure LayoutRecommendations where
  gardenDimensions : List Char
  plantGroupings : List PlantGrouping
  spacingGuide : List (List Char × List Char)
  companionPlantingTips : List (List Char)
  layoutTips : List (List Char)
deriving DecidableEq

/-- `PlanRequest`. -/
structure PlanRequest where
  zipCode : List Char
  selectedPlants : List (List Char)
  gardenSize : List Char := chars "medium"
  experienceLevel : List Char := chars "beginner"
deriving DecidableEq

/-- `GardenPlan` (the composite document; `plan_id`/`created_date` carry no
claim content and are a placeholder and the assembly instant). -/
structure GardenPlan where
  planId : List Char
  createdDate : Nat
  location : LocationInfo
  selectedPlants : List (List Char)
  plantInformation : List PlantInfo
  plantingSchedules : List PlantingSchedule
  growingInstructions : List GrowingInstructions
  layoutRecommendations : LayoutRecommendations
  generalTips : List (List Char)
deriving DecidableEq

/-! ## Association-list model of Python dicts -/

section Assoc

variable {α : Type}

/-- `d.get(k)` / `k in d`: first entry with the key. -/
def assocGet (m : List (List Char × α)) (k : List Char) : Option α :=
  match m.find? (fun e => decide (e.1 = k)) with
  | some e => some e.2
  | none => none

/-- `d[k] = v`: replace the first entry with the key in place (keys are
unique in a Python dict, so it is the only one), or append a new one. -/
def assocPut : List (List Char × α) → List Char → α → List (List Char × α)
  | [], k, v => [(k, v)]
  | e :: rest, k, v =>
    if e.1 = k then (k, v) :: rest else e :: assocPut rest k v

/-- `del d[k]`. -/
def assocErase (m : List (List Char × α)) (k : List Char) :
    List (List Char × α) :=
  m.filter (fun e => decide ¬(e.1 = k))

end Assoc

/-! ## `PlantCache` (`services/plant_service.py` lines 18-63)

The source keeps two dicts, `_cache` and `_timestamps`, always written and
deleted in lockstep under the same key; the model fuses them into one
association list from the normalized key to the record and its insertion
instant. `cache_duration` is one hour (3600 seconds). -/

structure PlantCache where
  entries : List (List Char × PlantInfo × Nat)
  cacheDuration : Nat
deriving DecidableEq

/-- A freshly constructed cache: empty, TTL one hour. -/
def PlantCache.init : PlantCache := { entries := [], cacheDuration := 3600 }

/-- `PlantCache.get`: normalize the key; absent gives `None`; an entry
strictly older than the TTL is deleted and gives `None`; otherwise the
record is returned and the cache is untouched. -/
def PlantCache.get (c : PlantCache) (now : Nat) (plantName : List Char) :
    Option PlantInfo × PlantCache :=
  let key := pyNormalize plantName
  match assocGet c.entries key with
  | none => (none, c)
  | some (info, ts) =>
    if c.cacheDuration < now - ts then
      (none, { c with entries := assocErase c.entries key })
    else
      (some info, c)

/-- `PlantCache.store`: store under the caller's normalized key and, when
different, also under the record's own normalized display name. -/
def PlantCache.store (c : PlantCache) (now : Nat) (plantName : List Char)
    (info : PlantInfo) : PlantCache :=
  let key := pyNormalize plantName
  let entries1 := assocPut c.entries key (info, now)
  let actualKey := pyNormalize info.name
  if actualKey = key then
    { c with entries := entries1 }
  else
    { c with entries := assocPut entries1 actualKey (info, now) }

/-! ## Three-tier resolution (`services/plant_service.py` lines 162-499)

The external collaborators of one resolution run: the PostgreSQL store
(`none` when `database_available` is false, otherwise its list of plant
rows in table order), the static JSON fallback (keys are
`plant.name.lower()` as `_load_static_database` builds them), and the
generative tier, mapping a requested name to the record the
LLM-generate-parse-validate chain yields (`none` for an empty response,
unparseable JSON, an explicit `null`, or a raised error, which
`get_plant_info` all converts to an absent result). -/

structure ResolveEnv where
  db : Option (List PlantInfo)
  static : List (List Char × PlantInfo)
  llm : List Char → Option PlantInfo

/-- The effects a resolution run sends to the external tiers. -/
inductive Effect where
  | dbQuery (name : List Char)
  | dbBatchQuery (names : List (List Char))
  | usageIncrement (name : List Char)
  | dbStore (name : List Char)
  | llmCall (name : List Char)
deriving DecidableEq

/-- `_get_plant_from_database`: first an exact match of `lower(name)`
against the normalized query, then a substring match (`lower(name)`
contains the normalized query), first row wins. -/
def getPlantFromDatabase (db : List PlantInfo) (plantName : List Char) :
    Option PlantInfo :=
  let q := pyNormalize plantName
  match db.find? (fun p => decide (pyLower p.name = q)) with
  | some p => some p
  | none => db.find? (fun p => listContainsSub (pyLower p.name) q)

/-- `_get_multiple_plants_from_database`: one batched query,
`lower(name) IN (normalized names)`, returning matching rows in table
order (their usage counters are incremented as a side effect). -/
def getMultiplePlantsFromDatabase (db : List PlantInfo)
    (plantNames : List (List Char)) : List PlantInfo :=
  if plantNames.isEmpty then []
  else
    let lowerNames := plantNames.map pyNormalize
    db.filter (fun p => lowerNames.contains (pyLower p.name))

/-- Tier 3 of `get_plant_info`: generate via the LLM; on success store in
the database (when available) and the cache, on any failure return absent
(the source catches every exception here). -/
def getPlantInfoTier3 (env : ResolveEnv) (now : Nat) (cache : PlantCache)
    (plantName : List Char) (effs : List Effect) :
    Option PlantInfo × PlantCache × List Effect :=
  match env.llm plantName with
  | some gen =>
    let effs := effs ++ [Effect.llmCall plantName] ++
      (if env.db.isSome then [Effect.dbStore gen.name] else [])
    (some gen, cache.store now plantName gen, effs)
  | none => (none, cache, effs ++ [Effect.llmCall plantName])

/-- `get_plant_info`: cache, then database (write-through and usage
increment on a hit) or static JSON, then LLM generation. -/
def getPlantInfo (env : ResolveEnv) (now : Nat) (cache : PlantCache)
    (plantName : List Char) : Option PlantInfo × PlantCache × List Effect :=
  let g := cache.get now plantName
  match g.1 with
  | some p => (some p, g.2, [])
  | none =>
    match env.db with
    | some db =>
      match getPlantFromDatabase db plantName with
      | some p =>
        (some p, g.2.store now plantName p,
         [Effect.dbQuery plantName, Effect.usageIncrement plantName])
      | none => getPlantInfoTier3 env now g.2 plantName [Effect.dbQuery plantName]
    | none =>
      match assocGet env.static (pyNormalize plantName) with
      | some p => (some p, g.2, [])
      | none => getPlantInfoTier3 env now g.2 plantName []

/-- Tier 1 of `get_multiple_plants`: split the requested names into cache
hits (kept in request order) and misses, threading the cache through the
lazy-expiry deletions `get` may perform. -/
def batchCacheTier (now : Nat) (cache : PlantCache)
    (plantNames : List (List Char)) :
    List PlantInfo × List (List Char) × PlantCache :=
  plantNames.foldl
    (fun (acc : List PlantInfo × List (List Char) × PlantCache) name =>
      let g := acc.2.2.get now name
      match g.1 with
      | some p => (acc.1 ++ [p], acc.2.1, g.2)
      | none => (acc.1, acc.2.1 ++ [name], g.2))
    ([], [], cache)

/-- Tier 3 of `get_multiple_plants`: one `get_plant_info` task per
remaining name; results that are records are collected, failures and
exceptions are discarded (`asyncio.gather(..., return_exceptions=True)`
followed by an `isinstance` filter). The fan-out is modelled in request
order. -/
def batchLlmTier (env : ResolveEnv) (now : Nat)
    (acc : List PlantInfo × PlantCache) (remaining : List (List Char)) :
    List PlantInfo × PlantCache :=
  remaining.foldl
    (fun (acc : List PlantInfo × PlantCache) name =>
      let r := getPlantInfo env now acc.2 name
      match r.1 with
      | some p => (acc.1 ++ [p], r.2.1)
      | none => (acc.1, r.2.1))
    acc

/-- `get_multiple_plants`: cache tier, then one batched database query
(write-through, and each returned row filters every alias of its name out
of the miss list) or the static JSON fallback (which removes found names
by exact string identity), then the LLM fan-out. -/
def getMultiplePlants (env : ResolveEnv) (now : Nat) (cache : PlantCache)
    (plantNames : List (List Char)) : List PlantInfo × PlantCache :=
  let t1 := batchCacheTier now cache plantNames
  let plants := t1.1
  let remaining := t1.2.1
  let c1 := t1.2.2
  if remaining.isEmpty then (plants, c1)
  else
    let t2 :=
      match env.db with
      | some db =>
        let dbPlants := getMultiplePlantsFromDatabase db remaining
        dbPlants.foldl
          (fun (acc : List PlantInfo × PlantCache × List (List Char)) p =>
            (acc.1 ++ [p], acc.2.1.store now p.name p,
             acc.2.2.filter (fun n => decide ¬(pyNormalize n = pyNormalize p.name))))
          (plants, c1, remaining)
      | none =>
        let found := remaining.foldl
          (fun (acc : List PlantInfo × List (List Char)) n =>
            match assocGet env.static (pyNormalize n) with
            | some p => (acc.1 ++ [p], acc.2 ++ [n])
            | none => acc)
          (plants, ([] : List (List Char)))
        (found.1, c1, remaining.filter (fun n => decide ¬(n ∈ found.2)))
    batchLlmTier env now (t2.1, t2.2.1) t2.2.2

/-! ## Structured-output extraction (`services/garden_plan_service.py`)

`_extract_complete_json` (lines 771-835): a character-by-character scan
that tracks string-literal state and backslash-escape state and counts
bracket depth only outside string literals. The source tries an array
first — scanning from the first `[` anywhere in the text — and only when
no complete array is found does it scan from the first `{`. -/

/-- `text[text.find(c):]` when `c` occurs, else `None`. -/
def dropUntilChar (c : Char) : List Char → Option (List Char)
  | [] => none
  | x :: rest => if x = c then some (x :: rest) else dropUntilChar c rest

/-- The suffix of the text starting at the first occurrence of either
character, whichever comes first. -/
def dropUntilEither (a b : Char) : List Char → Option (List Char)
  | [] => none
  | x :: rest =>
    if x = a ∨ x = b then some (x :: rest) else dropUntilEither a b rest

/-- The source's per-character loop, started at the opening bracket:
an escaped character is consumed with no effect; a backslash arms the
escape flag; an unescaped quote toggles string state; outside a string
the open/close characters move the depth, and the region ends when the
depth returns to zero. `acc` is the slice consumed so far, so the result
is `text[start:i+1]`. -/
def bracketScan (openC closeC : Char) :
    List Char → Nat → Bool → Bool → List Char → Option (List Char)
  | [], _, _, _, _ => none
  | c :: rest, depth, inString, escNext, acc =>
    if escNext then
      bracketScan openC closeC rest depth inString false (acc ++ [c])
    else if c = '\\' then
      bracketScan openC closeC rest depth inString true (acc ++ [c])
    else if c = '"' then
      bracketScan openC closeC rest depth (!inString) false (acc ++ [c])
    else if !inString ∧ c = openC then
      bracketScan openC closeC rest (depth + 1) inString false (acc ++ [c])
    else if !inString ∧ c = closeC then
      if depth = 1 then some (acc ++ [c])
      else bracketScan openC closeC rest (depth - 1) inString false (acc ++ [c])
    else
      bracketScan openC closeC rest depth inString false (acc ++ [c])

/-- `_extract_complete_json`: try the array scan from the first `[`; if it
does not complete (or there is no `[`), try the object scan from the
first `{`. -/
def extractCompleteJson (text : List Char) : Option (List Char) :=
  let arrayAttempt :=
    match dropUntilChar '[' text with
    | some s => bracketScan '[' ']' s 0 false false []
    | none => none
  match arrayAttempt with
  | some r => some r
  | none =>
    match dropUntilChar '{' text with
    | some s => bracketScan '{' '}' s 0 false false []
    | none => none

/-- Modelled from the spec: "Locate the first top-level bracketed region —
array (`[...]`) or object (`{...}`) — using a stack-based scan that tracks
string-literal state and backslash-escape state character by character,
incrementing/decrementing depth only outside of string literals, and
returns the substring from the opening bracket to the matching closing
bracket at depth zero." The first region is the one whose opening bracket
occurs first in the text, of either kind. -/
def firstTopLevelRegion (text : List Char) : Option (List Char) :=
  match dropUntilEither '[' '{' text with
  | none => none
  | some [] => none
  | some (c :: rest) =>
    if c = '[' then bracketScan '[' ']' (c :: rest) 0 false false []
    else bracketScan '{' '}' (c :: rest) 0 false false []

/-! ## The universal extraction pipeline
(`_extract_and_clean_json_universal`, lines 704-769) -/

/-- The conversational prefixes the universal extractor strips (lines
717-731), in source order. -/
def universalLeadMarkers : List (List Char) :=
  [chars "Here\x27s the JSON:",
   chars "Here is the JSON:",
   chars "Here are three gardening tips for tomatoes:",
   chars "Here are",
   chars "```json",
   chars "```",
   chars "JSON:",
   chars "Response:",
   chars "Here\x27s the detailed information:",
   chars "Here are the instructions:",
   chars "Here\x27s your",
   chars "Based on",
   chars "For your garden"]

/-- One pass over the marker list: each marker still matching the current
front of the text (case-insensitively) is cut off and the rest stripped. -/
def stripLeadMarkers (s : List Char) : List Char :=
  universalLeadMarkers.foldl
    (fun cur mk =>
      if (pyLower mk).isPrefixOf (pyLower cur) then
        pyStrip (cur.drop mk.length)
      else cur)
    s

/-- One match of `^```json\s*\n?` (case-insensitive) at a line start:
the remainder after the fence and its trailing whitespace, and whether the
last character consumed was a newline (so the next scan position is again
a line start). -/
def matchOpenFence : List Char → Option (List Char × Bool)
  | '`' :: '`' :: '`' :: c1 :: c2 :: c3 :: c4 :: rest =>
    if c1.toLower = 'j' ∧ c2.toLower = 's' ∧ c3.toLower = 'o' ∧ c4.toLower = 'n' then
      let ws := rest.takeWhile isPyWs
      some (rest.dropWhile isPyWs, decide (ws.getLast? = some '\n'))
    else none
  | _ => none

/-- `re.sub(r'^```json\s*\n?', '', ·, flags = IGNORECASE | MULTILINE)`:
left-to-right, non-overlapping, match only at line starts. Fuel-driven;
the fuel is at least the length of the text, and every step consumes at
least one character, so it never runs dry. -/
def stripOpenFences : Nat → Bool → List Char → List Char
  | 0, _, l => l
  | _ + 1, _, [] => []
  | fuel + 1, atLineStart, c :: rest =>
    if atLineStart then
      match matchOpenFence (c :: rest) with
      | some (rem, nl) => stripOpenFences fuel nl rem
      | none => c :: stripOpenFences fuel (c = '\n') rest
    else c :: stripOpenFences fuel (c = '\n') rest

/-- The suffix of the text starting at its last newline, if any. -/
def suffixFromLastNewline : List Char → Option (List Char)
  | [] => none
  | c :: rest =>
    match suffixFromLastNewline rest with
    | some s => some s
    | none => if c = '\n' then some (c :: rest) else none

/-- One match of ` ```\s*$ ` at a position: after the backticks the greedy
`\s*` backtracks until `$` (end of string, or just before a newline)
matches, so the match swallows the whitespace run up to its last newline,
or the whole run when it reaches the end of the text. Returns the
unconsumed remainder. -/
def closeFenceCore : List Char → Option (List Char)
  | '`' :: '`' :: '`' :: rest =>
    let run := rest.takeWhile isPyWs
    let tail := rest.dropWhile isPyWs
    if tail.isEmpty then some []
    else
      match suffixFromLastNewline run with
      | some suffix => some (suffix ++ tail)
      | none => none
  | _ => none

/-- One match of `\n?```\s*$` at a position: the optional newline is taken
greedily first. -/
def matchCloseFence : List Char → Option (List Char)
  | '\n' :: rest =>
    (match closeFenceCore rest with
     | some rem => some rem
     | none => closeFenceCore ('\n' :: rest))
  | s => closeFenceCore s

/-- `re.sub(r'\n?```\s*$', '', ·, flags = IGNORECASE | MULTILINE)`:
left-to-right, non-overlapping. Every match consumes at least three
characters, so length-sized fuel suffices. -/
def stripCloseFences : Nat → List Char → List Char
  | 0, l => l
  | _ + 1, [] => []
  | fuel + 1, c :: rest =>
    match matchCloseFence (c :: rest) with
    | some rem => stripCloseFences fuel rem
    | none => c :: stripCloseFences fuel rest

/-! ### `_fix_common_json_issues` (lines 672-702): the repair pass,
seven regex substitutions in source order, each modelled as the
left-to-right non-overlapping rewrite the `re.sub` performs. -/

/-- `re.sub(r'\s*//.*?(?=\n|$)', '', ·, MULTILINE)`: whitespace, `//` and
the rest of the line (the newline itself stays). A position matches only
when `//` follows its maximal whitespace run, since no shorter run can
satisfy the pattern. -/
def removeLineComments : Nat → List Char → List Char
  | 0, l => l
  | _ + 1, [] => []
  | fuel + 1, c :: rest =>
    match (c :: rest).dropWhile isPyWs with
    | '/' :: '/' :: rest2 =>
      removeLineComments fuel (rest2.dropWhile (fun ch => decide ¬(ch = '\n')))
    | _ => c :: removeLineComments fuel rest

/-- The remainder after the first `*/`, if any. -/
def dropThroughStarSlash : Nat → List Char → Option (List Char)
  | _, [] => none
  | 0, _ => none
  | _ + 1, '*' :: '/' :: rest => some rest
  | fuel + 1, _ :: rest => dropThroughStarSlash fuel rest

/-- `re.sub(r'/\*.*?\*/', '', ·, DOTALL)`: a lazy block comment; an
unclosed `/*` never matches. -/
def removeBlockComments : Nat → List Char → List Char
  | 0, l => l
  | _ + 1, [] => []
  | fuel + 1, '/' :: '*' :: rest =>
    (match dropThroughStarSlash (rest.length + 1) rest with
     | some rem => removeBlockComments fuel rem
     | none => '/' :: removeBlockComments fuel ('*' :: rest))
  | fuel + 1, c :: rest => c :: removeBlockComments fuel rest

/-- The apostrophe character. -/
def apos : Char := Char.ofNat 39

/-- `re.sub(r"'([^']*)'", r'"\1"', ·)`: a single-quoted span with no inner
single quote becomes double-quoted; an unpaired quote stays. -/
def singleToDoubleQuotes : Nat → List Char → List Char
  | 0, l => l
  | _ + 1, [] => []
  | fuel + 1, c :: rest =>
    if c = apos then
      let inner := rest.takeWhile (fun ch => decide ¬(ch = apos))
      match rest.dropWhile (fun ch => decide ¬(ch = apos)) with
      | _ :: rest2 => '"' :: (inner ++ ('"' :: singleToDoubleQuotes fuel rest2))
      | [] => c :: singleToDoubleQuotes fuel rest
    else c :: singleToDoubleQuotes fuel rest

/-- `re.sub(r',(\s*[}\]])', r'\1', ·)`: a comma whose maximal following
whitespace run ends at `}` or `]` is dropped, the group stays. -/
def removeTrailingCommas : Nat → List Char → List Char
  | 0, l => l
  | _ + 1, [] => []
  | fuel + 1, c :: rest =>
    if c = ',' then
      let ws := rest.takeWhile isPyWs
      match rest.dropWhile isPyWs with
      | b :: rest2 =>
        if b = '}' ∨ b = ']' then ws ++ (b :: removeTrailingCommas fuel rest2)
        else c :: removeTrailingCommas fuel rest
      | [] => c :: removeTrailingCommas fuel rest
    else c :: removeTrailingCommas fuel rest

/-- `re.sub(r'"\s*\n\s*"', '",\n    "', ·)`: two quotes separated by pure
whitespace containing a newline get a comma (the scan resumes after the
closing quote). -/
def insertMissingCommas : Nat → List Char → List Char
  | 0, l => l
  | _ + 1, [] => []
  | fuel + 1, c :: rest =>
    if c = '"' then
      let ws := rest.takeWhile isPyWs
      match rest.dropWhile isPyWs with
      | d :: rest2 =>
        if d = '"' ∧ ws.contains '\n' then
          '"' :: ',' :: '\n' :: ' ' :: ' ' :: ' ' :: ' ' :: '"' ::
            insertMissingCommas fuel rest2
        else c :: insertMissingCommas fuel rest
      | [] => c :: insertMissingCommas fuel rest
    else c :: insertMissingCommas fuel rest

/-- Python `\w` on the ASCII texts in play. -/
def isWordChar (c : Char) : Bool := c.isAlphanum || c == '_'

/-- `re.sub(r'(\w+):', r'"\1":', ·)`: a maximal word run directly before a
colon gets quoted; a run not before a colon cannot match at any of its
positions, so the scan skips past it whole. -/
def quoteBareKeys : Nat → List Char → List Char
  | 0, l => l
  | _ + 1, [] => []
  | fuel + 1, c :: rest =>
    if isWordChar c then
      let run := (c :: rest).takeWhile isWordChar
      match (c :: rest).dropWhile isWordChar with
      | ':' :: rest2 => '"' :: (run ++ ('"' :: (':' :: quoteBareKeys fuel rest2)))
      | after => run ++ quoteBareKeys fuel after
    else c :: quoteBareKeys fuel rest

/-- `re.sub(r'[\x00-\x1f\x7f-\x9f]', '', ·)`. -/
def removeControlChars (s : List Char) : List Char :=
  s.filter (fun ch => decide ¬(ch.toNat ≤ 31 ∨ (127 ≤ ch.toNat ∧ ch.toNat ≤ 159)))

/-- `_fix_common_json_issues`: the seven passes in source order. -/
def fixCommonJsonIssues (s : List Char) : List Char :=
  let s1 := removeLineComments (s.length + 1) s
  let s2 := removeBlockComments (s1.length + 1) s1
  let s3 := singleToDoubleQuotes (s2.length + 1) s2
  let s4 := removeTrailingCommas (s3.length + 1) s3
  let s5 := insertMissingCommas (s4.length + 1) s4
  let s6 := quoteBareKeys (s5.length + 1) s5
  removeControlChars s6

/-! ### A JSON value parser standing for `json.loads`

Modelled from the spec: the parse step of §4.2 ("Attempt to parse the
extracted substring as a structured value") is Python's standard-library
`json.loads`, which is not part of this repository; this is a stand-in
covering the fragment the claims exercise — objects, arrays, strings with
simple backslash escapes, integers, booleans and null — rejecting
trailing garbage, as `json.loads` does. -/

inductive JsonVal where
  | null
  | bool (b : Bool)
  | num (n : Int)
  | str (s : List Char)
  | arr (elems : List JsonVal)
  | obj (fields : List (List Char × JsonVal))

/-- JSON inter-token whitespace. -/
def skipWs (l : List Char) : List Char := l.dropWhile isPyWs

/-- A string body after the opening quote: plain characters up to the
closing quote, with two-character backslash escapes. -/
def parseStringLit : Nat → List Char → Option (List Char × List Char)
  | 0, _ => none
  | _ + 1, [] => none
  | fuel + 1, c :: rest =>
    if c = '"' then some ([], rest)
    else if c = '\\' then
      match rest with
      | e :: rest2 =>
        (parseStringLit fuel rest2).map (fun r =>
          (((if e = 'n' then '\n'
             else if e = 't' then '\t'
             else if e = 'r' then Char.ofNat 13
             else e) : Char) :: r.1, r.2))
      | [] => none
    else (parseStringLit fuel rest).map (fun r => (c :: r.1, r.2))

/-- A run of decimal digits to a `Nat`, with the remainder. -/
def parseDigits (l : List Char) : Option (Nat × List Char) :=
  let run := l.takeWhile Char.isDigit
  if run.isEmpty then none
  else some (run.foldl (fun n c => n * 10 + (c.toNat - 48)) 0, l.dropWhile Char.isDigit)

mutual

/-- One JSON value at the front of the input. -/
def parseJsonValue : Nat → List Char → Option (JsonVal × List Char)
  | 0, _ => none
  | fuel + 1, l =>
    match skipWs l with
    | [] => none
    | c :: rest =>
      if c = '\x7b' then
        match skipWs rest with
        | '\x7d' :: rest2 => some (JsonVal.obj [], rest2)
        | l2 => (parseObjFields fuel l2 []).map (fun r => (JsonVal.obj r.1, r.2))
      else if c = '[' then
        match skipWs rest with
        | ']' :: rest2 => some (JsonVal.arr [], rest2)
        | l2 => (parseArrElems fuel l2 []).map (fun r => (JsonVal.arr r.1, r.2))
      else if c = '"' then
        (parseStringLit (rest.length + 1) rest).map (fun r => (JsonVal.str r.1, r.2))
      else if c = 't' then
        match rest with
        | 'r' :: 'u' :: 'e' :: r => some (JsonVal.bool true, r)
        | _ => none
      else if c = 'f' then
        match rest with
        | 'a' :: 'l' :: 's' :: 'e' :: r => some (JsonVal.bool false, r)
        | _ => none
      else if c = 'n' then
        match rest with
        | 'u' :: 'l' :: 'l' :: r => some (JsonVal.null, r)
        | _ => none
      else if c = '-' then
        (parseDigits rest).map (fun r => (JsonVal.num (-(r.1 : Int)), r.2))
      else if c.isDigit then
        (parseDigits (c :: rest)).map (fun r => (JsonVal.num (r.1 : Int), r.2))
      else none

/-- The elements of a non-empty array, after its `[`. -/
def parseArrElems : Nat → List Char → List JsonVal →
    Option (List JsonVal × List Char)
  | 0, _, _ => none
  | fuel + 1, l, acc =>
    match parseJsonValue fuel l with
    | none => none
    | some (v, rem) =>
      match skipWs rem with
      | ',' :: rest => parseArrElems fuel rest (acc ++ [v])
      | ']' :: rest => some (acc ++ [v], rest)
      | _ => none

/-- The fields of a non-empty object, after its `{`. -/
def parseObjFields : Nat → List Char → List (List Char × JsonVal) →
    Option (List (List Char × JsonVal) × List Char)
  | 0, _, _ => none
  | fuel + 1, l, acc =>
    match skipWs l with
    | '"' :: rest =>
      match parseStringLit (rest.length + 1) rest with
      | none => none
      | some (key, rem) =>
        match skipWs rem with
        | ':' :: rest2 =>
          match parseJsonValue fuel rest2 with
          | none => none
          | some (v, rem2) =>
            match skipWs rem2 with
            | ',' :: rest3 => parseObjFields fuel rest3 (acc ++ [(key, v)])
            | '\x7d' :: rest3 => some (acc ++ [(key, v)], rest3)
            | _ => none
        | _ => none
    | _ => none

end

/-- Modelled from the spec: the §4.2 parse step is Python's
standard-library `json.loads` (not code of this repository); this
stand-in parses one value and then requires only trailing whitespace, as
`json.loads` does. -/
def jsonParse (l : List Char) : Option JsonVal :=
  match parseJsonValue (2 * l.length + 8) l with
  | some (v, rem) => if (skipWs rem).isEmpty then some v else none
  | none => none

/-- `_extract_and_clean_json_universal` (lines 704-769): reject an empty
response; strip whitespace, conversational lead markers and markdown
fences; locate the bracketed region with `_extract_complete_json`; parse
it, and on a parse failure repair once with `_fix_common_json_issues` and
retry; every remaining failure is the explicit `None` result (the source
catches `json.JSONDecodeError` on both attempts). -/
def extractAndCleanJsonUniversal (response : List Char) : Option JsonVal :=
  if response.isEmpty then none
  else
    let cleaned := pyStrip response
    let cleaned := stripLeadMarkers cleaned
    let cleaned := stripOpenFences (cleaned.length + 1) true cleaned
    let cleaned := stripCloseFences (cleaned.length + 1) cleaned
    match extractCompleteJson cleaned with
    | none => none
    | some jsonStr =>
      match jsonParse jsonStr with
      | some data => some data
      | none =>
        match jsonParse (fixCommonJsonIssues jsonStr) with
        | some data => some data
        | none => none

/-! ## Plan assembly (`services/garden_plan_service.py`)

Exceptions `create_garden_plan` lets escape to its caller. -/

inductive PyError where
  | valueError (msg : List Char)
  | attributeError (attr : List Char)
deriving DecidableEq

/-- The message of the one intended fatal error (line 70): it interpolates
the Python list repr of the requested names. -/
def pyListRepr (xs : List (List Char)) : List Char :=
  chars "[" ++ joinSep (chars ", ") (xs.map (fun x => apos :: (x ++ [apos]))) ++ chars "]"

def noPlantsMessage (selected : List (List Char)) : List Char :=
  chars "No plant information could be retrieved for any of the selected plants: " ++
  pyListRepr selected ++
  chars ". Please try with common plants like \x27tomato\x27, \x27lettuce\x27, or \x27carrots\x27."

/-- `_create_default_schedules` (lines 581-594): its loop body evaluates
`self._calculate_indoor_start_date`, `self._calculate_direct_sow_date`
and `self._calculate_transplant_date` — none of which is defined anywhere
in the repository — so with a non-empty plant list the first iteration
raises `AttributeError`; with an empty list the loop does not run and the
empty schedule list is returned. -/
def createDefaultSchedules (plants : List PlantInfo) (_location : LocationInfo) :
    Except PyError (List PlantingSchedule) :=
  match plants with
  | [] => Except.ok []
  | _ :: _ => Except.error (PyError.attributeError (chars "_calculate_indoor_start_date"))

/-- `_generate_planting_schedules` (lines 130-224): every failure mode of
the generative call — empty response, unextractable or unparseable JSON,
or a raised error — lands in `_create_default_schedules(plants, location)`
(either at lines 197/204 or in the `except` at line 224). The generative
outcome is abstracted to the parsed schedule list it produced, `none` for
any failure. -/
def generatePlantingSchedules (outcome : Option (List PlantingSchedule))
    (plants : List PlantInfo) (location : LocationInfo) :
    Except PyError (List PlantingSchedule) :=
  match outcome with
  | some schedules => Except.ok schedules
  | none => createDefaultSchedules plants location

/-- The 29 specificity indicators of `_validate_instruction_quality`
(lines 331-337), in source order. -/
def detailedIndicators : List (List Char) :=
  [chars "inches", chars "feet", chars "cm", chars "temperature",
   chars "°f", chars "°c", chars "degrees",
   chars "tablespoons", chars "teaspoons", chars "cups", chars "gallons",
   chars "liters",
   chars "weeks", chars "days", chars "hours", chars "times per", chars "every",
   chars "march", chars "april", chars "may", chars "june", chars "july",
   chars "august", chars "september",
   chars "ph", chars "fertilizer", chars "compost", chars "mulch",
   chars "soil moisture"]

/-- The concatenated, lower-cased text of all six instruction lists
(`' '.join(all_instructions).lower()`). -/
def instructionText (d : GrowingInstructions) : List Char :=
  pyLower (joinSep (chars " ")
    (d.preparationSteps ++ d.plantingSteps ++ d.careInstructions ++
     d.pestManagement ++ d.harvestInstructions ++ d.storageTips))

/-- The number of indicators that occur in the instruction text. -/
def detailCount (d : GrowingInstructions) : Nat :=
  (detailedIndicators.filter (fun ind => listContainsSub (instructionText d) ind)).length

/-- `_validate_instruction_quality`: detailed iff at least 5 indicators
occur. -/
def validateInstructionQuality (d : GrowingInstructions) : Bool :=
  decide (5 ≤ detailCount d)

/-- `_enhance_basic_instructions` (lines 359-405): copy the parsed data and
replace its preparation, planting, care and harvest lists with templates
interpolating the plant's own attributes and dates computed from the
climate profile (frost date − 6 weeks, + 2 weeks, and + 2 weeks + the
plant's harvest days); pest management, storage tips and the plant name
are kept from the parsed data. -/
def enhanceBasicInstructions (d : GrowingInstructions) (plant : PlantInfo)
    (location : LocationInfo) : GrowingInstructions :=
  let indoorStart := location.lastFrostDate.map (fun lf => lf - 42)
  let transplantDate := location.lastFrostDate.map (fun lf => lf + 14)
  let harvestDate := transplantDate.map (fun t => t + (pyOrNat plant.daysToHarvest 60 : Int))
  { d with
    preparationSteps :=
      [chars "Test soil pH to achieve " ++ pyOrStr plant.soilPhRange (chars "6.0-6.8") ++
         chars " using digital pH meter",
       chars "Amend soil with 2-3 inches of compost worked into top 8 inches",
       chars "Select location with " ++ pyOrStr plant.sunRequirements (chars "full sun") ++
         chars " - minimum 6-8 hours daily"]
    plantingSteps :=
      [chars "Start seeds indoors on " ++
         (match indoorStart with
          | some dt => fmtMonthDay dt
          | none => chars "early spring") ++ chars " at 70-75°F",
       chars "Plant seeds " ++ pyOrStr plant.plantingDepthInches (chars "0.5") ++
         chars " inches deep with " ++ natToChars (pyOrNat plant.spacingInches 12) ++
         chars " inch spacing",
       chars "Transplant outdoors on " ++
         (match transplantDate with
          | some dt => fmtMonthDay dt
          | none => chars "after last frost") ++ chars " when soil is 60°F+"]
    careInstructions :=
      [chars "Water deeply 1-1.5 inches per week, checking soil moisture 2 inches deep",
       chars "Apply balanced 10-10-10 fertilizer at 2 tablespoons per plant every 3 weeks",
       chars "Mulch with 2-3 inches organic matter, keeping 6 inches from plant stem"]
    harvestInstructions :=
      [chars "Begin harvest approximately " ++ natToChars (pyOrNat plant.daysToHarvest 60) ++
         chars " days after transplant - around " ++
         (match harvestDate with
          | some dt => fmtMonthDay dt
          | none => chars "mid-summer"),
       chars "Harvest in early morning (6-8 AM) when temperatures are below 75°F",
       chars "Use clean, sharp shears cutting 1/4 inch above leaf nodes"] }

/-- `_create_enhanced_default_instructions` (lines 407-443): the per-plant
deterministic default, templated on the plant's own attributes. -/
def createEnhancedDefaultInstructions (plant : PlantInfo)
    (location : LocationInfo) (_request : PlanRequest) : GrowingInstructions :=
  { plantName := plant.name
    preparationSteps :=
      [chars "Choose a location with " ++
         pyOrStr plant.sunRequirements (chars "appropriate sunlight") ++
         chars " for " ++ plant.name,
       chars "Prepare soil with pH " ++ pyOrStr plant.soilPhRange (chars "6.0-7.0") ++
         chars " suitable for " ++ plant.name,
       chars "Ensure good drainage as " ++ plant.name ++ chars " requires " ++
         pyOrStr plant.waterRequirements (chars "moderate") ++ chars " watering"]
    plantingSteps :=
      [chars "Plant " ++ plant.name ++ chars " seeds at " ++
         pyOrStr plant.plantingDepthInches (chars "0.5") ++ chars " inch depth",
       chars "Space plants " ++ natToChars (pyOrNat plant.spacingInches 12) ++
         chars " inches apart for proper growth",
       chars "Plant after last frost date (" ++ fmtOptDate location.lastFrostDate ++
         chars ") in your zone " ++ fmtOpt location.usdaZone]
    careInstructions :=
      [chars "Water " ++ plant.name ++ chars " according to " ++
         pyOrStr plant.waterRequirements (chars "moderate") ++ chars " water needs",
       chars "Monitor growth and provide support if needed for " ++ plant.name,
       chars "Fertilize appropriately for " ++ plant.plantType ++
         chars " during growing season"]
    pestManagement :=
      [chars "Monitor " ++ plant.name ++ chars " regularly for common " ++
         plant.plantType ++ chars " pests",
       chars "Use integrated pest management appropriate for " ++
         fmtOpt location.climateType ++ chars " climate",
       chars "Inspect weekly and treat organically when possible"]
    harvestInstructions :=
      [chars "Harvest " ++ plant.name ++ chars " approximately " ++
         natToChars (pyOrNat plant.daysToHarvest 60) ++ chars " days after planting",
       chars "Pick " ++ plant.name ++ chars " at optimal ripeness for best flavor",
       chars "Harvest regularly to encourage continued production"]
    storageTips :=
      [chars "Store fresh " ++ plant.name ++ chars " properly to maintain quality",
       chars "Consider preservation methods suitable for " ++ plant.plantType,
       chars "Use or preserve harvest promptly for best results"] }

/-- The per-plant body of `_generate_growing_instructions` (lines 286-323).
The generative outcome for one plant is abstracted to
`none` (no/insufficient response, or a raised error),
`some none` (substantial response whose JSON could not be extracted) or
`some (some d)` (extracted data `d`). A detailed `d` is used as-is; a
low-detail `d` goes through the enhancement pass; the other branches fall
back to the enhanced per-plant default. No branch discards the plant. -/
def processInstructionResponse (plant : PlantInfo) (location : LocationInfo)
    (request : PlanRequest) (outcome : Option (Option GrowingInstructions)) :
    GrowingInstructions :=
  match outcome with
  | some (some d) =>
    if validateInstructionQuality d then d
    else enhanceBasicInstructions d plant location
  | some none => createEnhancedDefaultInstructions plant location request
  | none => createEnhancedDefaultInstructions plant location request

/-- `_generate_growing_instructions`: one independent generative call per
resolved plant, in order; a plant's failure affects only its own entry. -/
def generateGrowingInstructions (plants : List PlantInfo)
    (location : LocationInfo) (request : PlanRequest)
    (outcomes : PlantInfo → Option (Option GrowingInstructions)) :
    List GrowingInstructions :=
  plants.map (fun p => processInstructionResponse p location request (outcomes p))

/-- The layout default `_generate_layout_recommendations` returns on any
generative failure (lines 520-527; the spacing-guide comprehension keeps
plants whose spacing attribute is present and non-zero). -/
def defaultLayoutRecommendations (plants : List PlantInfo)
    (request : PlanRequest) : LayoutRecommendations :=
  { gardenDimensions := chars "Recommended for " ++ request.gardenSize ++ chars " garden"
    plantGroupings := [{ groupName := chars "Mixed Garden", plants := plants.map (·.name) }]
    spacingGuide := plants.filterMap (fun p =>
      match p.spacingInches with
      | some s => if s = 0 then none else some (p.name, natToChars s ++ chars " inches apart")
      | none => none)
    companionPlantingTips := [chars "Consider companion planting benefits"]
    layoutTips := [chars "Place taller plants where they won\x27t shade shorter ones"] }

/-- The tips default `_generate_general_tips` returns on any generative
failure (lines 564-570). -/
def defaultGeneralTips (location : LocationInfo) : List (List Char) :=
  [chars "Consider your USDA zone (" ++ fmtOpt location.usdaZone ++
     chars ") when planning planting dates",
   chars "Start with a soil test to understand your garden\x27s needs",
   chars "Water deeply but less frequently to encourage strong root growth",
   chars "Keep a garden journal to track what works in your specific location"]

/-- The generative outcomes of one assembly run; each `none` stands for
every failure mode of that section's generative call, which the source
funnels into the section's fallback. -/
structure SectionOutcomes where
  schedules : Option (List PlantingSchedule)
  instructions : PlantInfo → Option (Option GrowingInstructions)
  layout : Option LayoutRecommendations
  tips : Option (List (List Char))

/-- `create_garden_plan` (lines 28-128). Steps, as in the source: resolve
the plants (the surrounding `try` never fires, since
`get_multiple_plants` catches everything internally); fail with the one
`ValueError` when nothing resolved; generate schedules, where a
generative failure routes to `_create_default_schedules`, whose
`AttributeError` the step-3 `except` catches only to call
`_create_default_schedules` again, this time uncaught; generate the other
three sections, whose fallbacks are total; assemble the `GardenPlan`,
with `selected_plants` rebuilt from the resolved records. The best-effort
save (`_save_garden_plan`) swallows its own errors and is omitted. -/
def createGardenPlan (env : ResolveEnv) (now : Nat) (cache : PlantCache)
    (request : PlanRequest) (location : LocationInfo)
    (outcomes : SectionOutcomes) : Except PyError GardenPlan × PlantCache :=
  let r := getMultiplePlants env now cache request.selectedPlants
  let plantInformation := r.1
  let c1 := r.2
  if plantInformation.isEmpty then
    (Except.error (PyError.valueError (noPlantsMessage request.selectedPlants)), c1)
  else
    let step3 :=
      match generatePlantingSchedules outcomes.schedules plantInformation location with
      | Except.ok s => Except.ok s
      | Except.error _ => createDefaultSchedules plantInformation location
    match step3 with
    | Except.error e => (Except.error e, c1)
    | Except.ok plantingSchedules =>
      let growingInstructions :=
        generateGrowingInstructions plantInformation location request outcomes.instructions
      let layoutRecommendations :=
        outcomes.layout.getD (defaultLayoutRecommendations plantInformation request)
      let generalTips := outcomes.tips.getD (defaultGeneralTips location)
      (Except.ok
        { planId := chars "plan"
          createdDate := now
          location := location
          selectedPlants := plantInformation.map (·.name)
          plantInformation := plantInformation
          plantingSchedules := plantingSchedules
          growingInstructions := growingInstructions
          layoutRecommendations := layoutRecommendations
          generalTips := generalTips }, c1)

/-! ## Concrete fixtures for the claims -/

/-- A seeded "Tomato" store record. -/
def tomatoRec : PlantInfo :=
  { name := chars "Tomato", plantType := chars "vegetable",
    daysToHarvest := some 75, spacingInches := some 24,
    plantingDepthInches := some (chars "0.25"),
    sunRequirements := some (chars "full sun"),
    waterRequirements := some (chars "moderate"),
    soilPhRange := some (chars "6.0-6.8") }

/-- A store record whose canonical name strictly contains "tomato". -/
def cherryTomatoRec : PlantInfo :=
  { name := chars "Cherry Tomato", plantType := chars "vegetable",
    daysToHarvest := some 65, spacingInches := some 18 }

/-- The climate profile of the end-to-end scenario. -/
def locK1A : LocationInfo :=
  { zipCode := chars "K1A 0A6", city := some (chars "Ottawa"),
    usdaZone := some (chars "5a"), lastFrostDate := some 100,
    firstFrostDate := some 250, growingSeasonDays := some 150,
    climateType := some (chars "continental") }

/-- The store is seeded with "Tomato" only and every generative call
fails. -/
def envAllFail : ResolveEnv :=
  { db := some [tomatoRec], static := [], llm := fun _ => none }

/-- The end-to-end request of the spec's scenario. -/
def reqTomatoLettuce : PlanRequest :=
  { zipCode := chars "K1A 0A6",
    selectedPlants := [chars "Tomato", chars "Lettuce"] }

/-- A request for the one seeded plant. -/
def reqTomato : PlanRequest :=
  { zipCode := chars "K1A 0A6", selectedPlants := [chars "Tomato"] }

/-- Every per-section generative call fails. -/
def outcomesAllFail : SectionOutcomes :=
  { schedules := none, instructions := fun _ => none, layout := none, tips := none }

/-- The schedules call succeeds (with an empty parsed list); everything
else fails. -/
def outcomesSchedulesOk : SectionOutcomes :=
  { schedules := some [{ plantName := chars "Tomato" }],
    instructions := fun _ => none, layout := none, tips := none }

/-- The regression input of §8: an object whose string value contains a
closing brace. -/
def braceExample : List Char := chars "\x7b\"a\": \"value with \x7d brace inside\"\x7d"

/-! ## C1 -/

/-- **C1.** In the spec's end-to-end scenario — request
`{locationCode: "K1A 0A6", plantNames: ["Tomato", "Lettuce"]}`, the store
seeded with exactly one "Tomato" record and every generative call failing
— entity resolution does yield exactly the Tomato record, but the Plan
Assembler does not return a GardenPlan: the schedules fallback
`_create_default_schedules` calls the undefined helpers
`_calculate_indoor_start_date` / `_calculate_direct_sow_date` /
`_calculate_transplant_date`, so an `AttributeError` escapes
`create_garden_plan`. No `lastFrostDate + 14` sow default or derived
harvest window is ever produced (those helpers do not exist anywhere in
the repository). -/
theorem c1_default_schedule_fallback_raises :
    (getMultiplePlants envAllFail 0 PlantCache.init
        reqTomatoLettuce.selectedPlants).1 = [tomatoRec] ∧
    (createGardenPlan envAllFail 0 PlantCache.init reqTomatoLettuce locK1A
        outcomesAllFail).1 =
      Except.error (PyError.attributeError (chars "_calculate_indoor_start_date")) := by
  exact ⟨rfl, rfl⟩

/-! ## C3 -/

/-- **C3.** Zero resolved entities is not the only fatal condition of plan
assembly: for the request `["Tomato"]` with "Tomato" resolvable from the
store, a schedules-generation failure makes `create_garden_plan` raise
the `AttributeError` of the missing `_calculate_*` helpers — an error
other than the documented "no entities resolved" `ValueError` crosses the
Plan Assembler boundary. -/
theorem c3_attribute_error_crosses_boundary :
    (createGardenPlan envAllFail 0 PlantCache.init reqTomato locK1A
        outcomesAllFail).1 =
      Except.error (PyError.attributeError (chars "_calculate_indoor_start_date")) ∧
    (∀ msg, (createGardenPlan envAllFail 0 PlantCache.init reqTomato locK1A
        outcomesAllFail).1 = Except.error (PyError.valueError msg) → False) := by
  refine ⟨rfl, ?_⟩
  intro msg h
  rw [show (createGardenPlan envAllFail 0 PlantCache.init reqTomato locK1A
      outcomesAllFail).1 =
      Except.error (PyError.attributeError (chars "_calculate_indoor_start_date")) from rfl] at h
  injection h with h2
  exact PyError.noConfusion h2

/-! ## C5 -/

/-- **C5.** The extractor is total: `_extract_and_clean_json_universal`
returns a parsed value or the explicit `None` (in the embedding it is a
total function into `Option`, mirroring that the source catches
`json.JSONDecodeError` on both parse attempts and has no other failure
path), and on `""`, `"not json at all"` and `"{unbalanced"` it returns
`None`. -/
theorem c5_extractor_total :
    (∀ s, extractAndCleanJsonUniversal s = none ∨
      ∃ v, extractAndCleanJsonUniversal s = some v) ∧
    extractAndCleanJsonUniversal (chars "") = none ∧
    extractAndCleanJsonUniversal (chars "not json at all") = none ∧
    extractAndCleanJsonUniversal (chars "\x7bunbalanced") = none := by
  refine ⟨fun s => ?_, rfl, rfl, rfl⟩
  cases h : extractAndCleanJsonUniversal s with
  | none => exact Or.inl rfl
  | some v => exact Or.inr ⟨v, rfl⟩

/-! ## C2 -/

/-- **C2 (counterexample).** `_extract_complete_json` does not return the
first top-level bracketed region: on `"{} []"` the first top-level region
is the object `{}`, but the source scans for an array first and returns
the later `[]`. -/
theorem c2_counterexample_array_scanned_first :
    extractCompleteJson (chars "\x7b\x7d []") = some (chars "[]") ∧
    firstTopLevelRegion (chars "\x7b\x7d []") = some (chars "\x7b\x7d") ∧
    (extractCompleteJson (chars "\x7b\x7d []") =
      firstTopLevelRegion (chars "\x7b\x7d []") → False) := by
  refine ⟨rfl, rfl, ?_⟩
  intro h
  simp only [show extractCompleteJson (chars "\x7b\x7d []") = some (chars "[]") from rfl,
    show firstTopLevelRegion (chars "\x7b\x7d []") = some (chars "\x7b\x7d") from rfl] at h
  exact absurd h (by decide)

/-- If a character occurs nowhere in the text, the scan for it finds no
start position. -/
theorem dropUntilChar_eq_none {text : List Char} {c : Char}
    (h : ∀ ch ∈ text, ¬ ch = c) : dropUntilChar c text = none := by
  induction text with
  | nil => rfl
  | cons x rest ih =>
    have hx : ¬ x = c := h x (List.mem_cons_self x rest)
    simp only [dropUntilChar, if_neg hx]
    exact ih (fun ch hm => h ch (List.mem_cons_of_mem x hm))

/-- With no `[` in the text, the either-bracket scan is the `{` scan. -/
theorem dropUntilEither_eq_dropUntilChar {text : List Char}
    (h : ∀ ch ∈ text, ¬ ch = '[') :
    dropUntilEither '[' '{' text = dropUntilChar '{' text := by
  induction text with
  | nil => rfl
  | cons x rest ih =>
    have hx : ¬ x = '[' := h x (List.mem_cons_self x rest)
    by_cases hb : x = '{'
    · simp only [dropUntilEither, dropUntilChar, if_pos (Or.inr hb), if_pos hb]
    · simp only [dropUntilEither, dropUntilChar]
      rw [if_neg (by tauto), if_neg hb]
      exact ih (fun ch hm => h ch (List.mem_cons_of_mem x hm))

/-- A successful scan for a character starts at that character. -/
theorem dropUntilChar_head {text s : List Char} {c : Char}
    (h : dropUntilChar c text = some s) : ∃ rest, s = c :: rest := by
  induction text with
  | nil => exact absurd h (by simp [dropUntilChar])
  | cons x rest ih =>
    by_cases hx : x = c
    · subst hx
      rw [dropUntilChar, if_pos rfl] at h
      injection h with h2
      exact ⟨rest, h2.symm⟩
    · simp only [dropUntilChar, if_neg hx] at h
      exact ih h

set_option maxRecDepth 4096 in
/-- **C2 (amended).** The extraction scans for an array first: from the
first `[` anywhere in the text — even when an object region precedes it —
and only when no complete array is found does it apply the same
string-aware depth scan from the first `{`. Consequently the claim's
behavior holds on every text containing no `[`: there the result is
exactly the first top-level bracketed region; in particular the §8
regression input `'{"a": "value with } brace inside"}'` extracts to the
whole object and parses to a value whose field `a` preserves the literal
brace. -/
theorem c2_extraction_region_amended :
    (∀ text, (∀ ch ∈ text, ¬ ch = '[') →
      extractCompleteJson text = firstTopLevelRegion text) ∧
    extractCompleteJson braceExample = some braceExample ∧
    extractAndCleanJsonUniversal braceExample =
      some (JsonVal.obj [(chars "a", JsonVal.str (chars "value with \x7d brace inside"))]) := by
  refine ⟨fun text h => ?_, rfl, rfl⟩
  unfold extractCompleteJson firstTopLevelRegion
  rw [dropUntilChar_eq_none h, dropUntilEither_eq_dropUntilChar h]
  cases hd : dropUntilChar '{' text with
  | none => rfl
  | some s =>
    obtain ⟨rest, hs⟩ := dropUntilChar_head hd
    subst hs
    simp only [if_neg (by decide : ¬('{' : Char) = '[')]

/-! ## C10 -/

/-- **C10.** Whenever assembly succeeds, `selected_plants` is rebuilt from
the resolved records (in the resolver's return order), it equals
`plant_information` mapped to names (one-to-one), and a requested name
with no resolved record is absent from the returned document. -/
theorem c10_selected_plants_follow_resolved :
    ∀ (env : ResolveEnv) (now : Nat) (cache : PlantCache) (request : PlanRequest)
      (location : LocationInfo) (outcomes : SectionOutcomes),
    match (createGardenPlan env now cache request location outcomes).1 with
    | Except.ok plan =>
        plan.selectedPlants = plan.plantInformation.map (fun p => p.name) ∧
        plan.plantInformation =
          (getMultiplePlants env now cache request.selectedPlants).1 ∧
        ∀ n ∈ request.selectedPlants,
          ¬ n ∈ plan.plantInformation.map (fun p => p.name) →
          ¬ n ∈ plan.selectedPlants
    | Except.error _ => True := by
  intro env now cache request location outcomes
  simp only [createGardenPlan]
  split
  case h_2 => trivial
  case h_1 plan heq =>
    split at heq
    · simp at heq
    · split at heq
      · simp at heq
      · dsimp only at heq
        injection heq with h2
        subst h2
        exact ⟨rfl, rfl, fun n _ h => h⟩

/-! ## C9 -/

/-- **C9.** The store lookup backing `resolve` is not restricted to exact
normalized-key equality: when no row matches exactly, it returns the
first row whose lower-cased name contains the lower-cased trimmed query;
every record it returns comes from the store and matched one of the two
predicates; and concretely, `resolve("Tomato")` against a store holding
only "Cherry Tomato" returns that record, whose canonical name strictly
contains the requested name. -/
theorem c9_substring_fallback_lookup :
    (∀ (db : List PlantInfo) (name : List Char),
      (∀ r ∈ db, ¬ pyLower r.name = pyNormalize name) →
      getPlantFromDatabase db name =
        db.find? (fun r => listContainsSub (pyLower r.name) (pyNormalize name))) ∧
    (∀ (db : List PlantInfo) (name : List Char) (p : PlantInfo),
      getPlantFromDatabase db name = some p →
      p ∈ db ∧ (pyLower p.name = pyNormalize name ∨
        listContainsSub (pyLower p.name) (pyNormalize name) = true)) ∧
    getPlantFromDatabase [cherryTomatoRec] (chars "Tomato") = some cherryTomatoRec ∧
    listContainsSub (pyLower cherryTomatoRec.name) (pyNormalize (chars "Tomato")) = true ∧
    (cherryTomatoRec.name = chars "Tomato" → False) := by
  refine ⟨?_, ?_, rfl, by decide, by decide⟩
  · intro db name h
    have hnone : List.find? (fun r => decide (pyLower r.name = pyNormalize name)) db = none :=
      List.find?_eq_none.mpr (fun x hx => by simpa using h x hx)
    simp only [getPlantFromDatabase, hnone]
  · intro db name p hmain
    simp only [getPlantFromDatabase] at hmain
    cases hf : List.find? (fun r => decide (pyLower r.name = pyNormalize name)) db with
    | some q =>
      rw [hf] at hmain
      dsimp only at hmain
      injection hmain with h2
      subst h2
      exact ⟨List.mem_of_find?_eq_some hf, Or.inl (by simpa using List.find?_some hf)⟩
    | none =>
      rw [hf] at hmain
      dsimp only at hmain
      exact ⟨List.mem_of_find?_eq_some hmain, Or.inr (by simpa using List.find?_some hmain)⟩

/-! ## C8: substring helper lemmas -/

/-- The empty list is a prefix of everything. -/
theorem nil_isPrefixOf (l : List Char) : List.isPrefixOf [] l = true := by
  cases l <;> rfl

/-- An empty needle occurs in every haystack. -/
theorem listContainsSub_nil_needle (h : List Char) : listContainsSub h [] = true := by
  cases h <;> simp [listContainsSub, List.isPrefixOf]

/-- A list is a prefix of itself followed by anything. -/
theorem isPrefixOf_append_self (b c : List Char) : b.isPrefixOf (b ++ c) = true := by
  induction b with
  | nil => rw [List.nil_append]; exact nil_isPrefixOf c
  | cons x xs ih => simp [List.isPrefixOf, ih]

/-- A prefix of a list is a prefix of that list extended on the right. -/
theorem isPrefixOf_extend {b h : List Char} (t : List Char)
    (hp : b.isPrefixOf h = true) : b.isPrefixOf (h ++ t) = true := by
  induction b generalizing h with
  | nil => exact nil_isPrefixOf (h ++ t)
  | cons x xs ih =>
    cases h with
    | nil => simp [List.isPrefixOf] at hp
    | cons y ys =>
      simp only [List.isPrefixOf, Bool.and_eq_true, beq_iff_eq] at hp
      simp [List.isPrefixOf, hp.1, ih hp.2]

/-- The needle occurs at the front of `b ++ c`. -/
theorem listContainsSub_self_append (b c : List Char) :
    listContainsSub (b ++ c) b = true := by
  cases b with
  | nil => exact listContainsSub_nil_needle c
  | cons x xs => simp [listContainsSub, isPrefixOf_append_self]

/-- An occurrence survives prepending to the haystack. -/
theorem listContainsSub_append_right (a : List Char) {h b : List Char}
    (hc : listContainsSub h b = true) : listContainsSub (a ++ h) b = true := by
  induction a with
  | nil => simpa using hc
  | cons x xs ih => simp [listContainsSub, ih]

/-- An occurrence survives extending the haystack on the right. -/
theorem listContainsSub_extend {h b : List Char} (t : List Char)
    (hc : listContainsSub h b = true) : listContainsSub (h ++ t) b = true := by
  induction h with
  | nil =>
    cases b with
    | nil => exact listContainsSub_nil_needle t
    | cons y ys => simp [listContainsSub] at hc
  | cons x xs ih =>
    simp only [listContainsSub, Bool.or_eq_true] at hc
    rcases hc with hc | hc
    · have := isPrefixOf_extend (h := x :: xs) t hc
      simp only [List.cons_append, listContainsSub, Bool.or_eq_true]
      exact Or.inl (by simpa using this)
    · simp only [List.cons_append, listContainsSub, Bool.or_eq_true]
      exact Or.inr (ih hc)

/-- Any decomposition of the haystack around the needle is an occurrence. -/
theorem listContainsSub_of_decomp {s mid : List Char} (pre post : List Char)
    (hs : s = pre ++ (mid ++ post)) : listContainsSub s mid = true := by
  subst hs
  exact listContainsSub_append_right pre (listContainsSub_self_append mid post)

/-- Every list occurs in itself. -/
theorem listContainsSub_refl (b : List Char) : listContainsSub b b = true := by
  simpa using listContainsSub_self_append b []

/-- The needle occurs at the end of `a ++ b`. -/
theorem listContainsSub_append_end (a b : List Char) :
    listContainsSub (a ++ b) b = true :=
  listContainsSub_append_right a (listContainsSub_refl b)

/-! ## C8 -/

/-- **C8.** The quality validator classifies parsed instructions "low
detail" exactly when fewer than 5 of the specificity indicators occur in
the joined lower-cased text of its six string-list fields; a low-detail
value is routed to `_enhance_basic_instructions` and accepted (the
per-plant pipeline returns one instruction entry per plant — nothing is
discarded); and the enhanced steps interpolate the entity's spacing and
harvest-day attributes and, when the climate profile has a last frost
date, the transplant date computed from it (last frost + 2 weeks). -/
theorem c8_low_detail_routed_to_enhancement :
    (∀ d, validateInstructionQuality d = false ↔ detailCount d < 5) ∧
    (∀ plants location request outcomes,
      (generateGrowingInstructions plants location request outcomes).length =
        plants.length) ∧
    (∀ plant location request d, validateInstructionQuality d = false →
      processInstructionResponse plant location request (some (some d)) =
        enhanceBasicInstructions d plant location) ∧
    (∀ d plant location,
      listContainsSub
        (joinSep (chars " ") (enhanceBasicInstructions d plant location).plantingSteps)
        (natToChars (pyOrNat plant.spacingInches 12)) = true) ∧
    (∀ d plant location,
      listContainsSub
        (joinSep (chars " ") (enhanceBasicInstructions d plant location).harvestInstructions)
        (natToChars (pyOrNat plant.daysToHarvest 60)) = true) ∧
    (∀ d plant (location : LocationInfo) lf, location.lastFrostDate = some lf →
      listContainsSub
        (joinSep (chars " ") (enhanceBasicInstructions d plant location).plantingSteps)
        (fmtMonthDay (lf + 14)) = true) := by
  refine ⟨fun d => ?_, fun plants location request outcomes => ?_,
    fun plant location request d h => ?_, fun d plant location => ?_,
    fun d plant location => ?_, fun d plant location lf h => ?_⟩
  · simp [validateInstructionQuality, Nat.not_le]
  · simp [generateGrowingInstructions]
  · simp [processInstructionResponse, h]
  · simp only [enhanceBasicInstructions]
    simp only [joinSep]
    apply listContainsSub_append_right
    apply listContainsSub_extend
    apply listContainsSub_extend
    apply listContainsSub_extend
    exact listContainsSub_append_end _ _
  · simp only [enhanceBasicInstructions]
    simp only [joinSep]
    apply listContainsSub_extend
    apply listContainsSub_extend
    apply listContainsSub_extend
    apply listContainsSub_extend
    exact listContainsSub_append_end _ _
  · simp only [enhanceBasicInstructions, h, Option.map_some']
    simp only [joinSep]
    apply listContainsSub_append_right
    apply listContainsSub_append_right
    apply listContainsSub_extend
    exact listContainsSub_append_end _ _

/-! ## C7: association-list and cache lemmas -/

section AssocLemmas

variable {α : Type}

/-- Unfolding `assocGet` over a cons cell. -/
theorem assocGet_cons (e : List Char × α) (m : List (List Char × α)) (k : List Char) :
    assocGet (e :: m) k = if e.1 = k then some e.2 else assocGet m k := by
  unfold assocGet
  by_cases h : e.1 = k
  · rw [List.find?_cons_of_pos _ (by simpa using h), if_pos h]
  · rw [List.find?_cons_of_neg _ (by simpa using h), if_neg h]

/-- Looking up the key just written. -/
theorem assocGet_put_self (m : List (List Char × α)) (k : List Char) (v : α) :
    assocGet (assocPut m k v) k = some v := by
  induction m with
  | nil => simp [assocPut, assocGet_cons]
  | cons e rest ih =>
    by_cases h : e.1 = k
    · simp [assocPut, h, assocGet_cons]
    · simp only [assocPut, if_neg h, assocGet_cons, ih, if_neg h]

/-- Writing one key leaves every other key's lookup unchanged. -/
theorem assocGet_put_other (m : List (List Char × α)) {k k' : List Char} (v : α)
    (hk : ¬ k = k') : assocGet (assocPut m k v) k' = assocGet m k' := by
  induction m with
  | nil => simp [assocPut, assocGet_cons, hk, assocGet]
  | cons e rest ih =>
    by_cases h : e.1 = k
    · rw [assocPut, if_pos h, assocGet_cons, assocGet_cons, if_neg hk, if_neg]
      rw [h]
      exact hk
    · rw [assocPut, if_neg h, assocGet_cons, assocGet_cons, ih]

end AssocLemmas

/-- A store writes the record under the caller's normalized key (whatever
else it also writes). -/
theorem store_get_callerKey (c : PlantCache) (now : Nat) (name : List Char)
    (p : PlantInfo) :
    assocGet (c.store now name p).entries (pyNormalize name) = some (p, now) := by
  unfold PlantCache.store
  by_cases h : pyNormalize p.name = pyNormalize name
  · rw [if_pos h]
    exact assocGet_put_self _ _ _
  · rw [if_neg h]
    rw [assocGet_put_other _ _ h]
    exact assocGet_put_self _ _ _

/-- `store` does not change the TTL. -/
theorem store_duration (c : PlantCache) (now : Nat) (name : List Char)
    (p : PlantInfo) : (c.store now name p).cacheDuration = c.cacheDuration := by
  unfold PlantCache.store
  by_cases h : pyNormalize p.name = pyNormalize name
  · rw [if_pos h]
  · rw [if_neg h]

/-- `get` does not change the TTL. -/
theorem get_duration (c : PlantCache) (now : Nat) (name : List Char) :
    ((c.get now name).2).cacheDuration = c.cacheDuration := by
  cases h : assocGet c.entries (pyNormalize name) with
  | none => simp only [PlantCache.get, h]
  | some e =>
    obtain ⟨info, ts⟩ := e
    simp only [PlantCache.get, h]
    by_cases hexp : c.cacheDuration < now - ts
    · rw [if_pos hexp]
    · rw [if_neg hexp]

/-- **C7.** Cache reads obey lazy TTL expiry — `get` normalizes the key,
returns `None` on an absent key, deletes and returns `None` on an entry
strictly older than the TTL (one hour by construction), and returns the
record otherwise — and a store-backed `resolve` is memoized: after a
cache-miss resolve that hits the store, a second resolve within the TTL
returns the identical record from the cache with no store or generative
effect. The final conjunct exhibits a concrete run. -/
theorem c7_cache_ttl_and_memoized_resolve :
    PlantCache.init.cacheDuration = 3600 ∧
    (∀ (c : PlantCache) (now : Nat) (name : List Char),
      assocGet c.entries (pyNormalize name) = none →
      c.get now name = (none, c)) ∧
    (∀ (c : PlantCache) (now : Nat) (name : List Char) (info : PlantInfo) (ts : Nat),
      assocGet c.entries (pyNormalize name) = some (info, ts) →
      c.cacheDuration < now - ts →
      c.get now name =
        (none, { c with entries := assocErase c.entries (pyNormalize name) })) ∧
    (∀ (c : PlantCache) (now : Nat) (name : List Char) (info : PlantInfo) (ts : Nat),
      assocGet c.entries (pyNormalize name) = some (info, ts) →
      now - ts ≤ c.cacheDuration →
      c.get now name = (some info, c)) ∧
    (∀ (env : ResolveEnv) (db : List PlantInfo) (cache : PlantCache)
       (now1 now2 : Nat) (name : List Char) (p : PlantInfo),
      env.db = some db →
      (cache.get now1 name).1 = none →
      getPlantFromDatabase db name = some p →
      now2 - now1 ≤ cache.cacheDuration →
      getPlantInfo env now1 cache name =
        (some p, (cache.get now1 name).2.store now1 name p,
         [Effect.dbQuery name, Effect.usageIncrement name]) ∧
      getPlantInfo env now2 ((cache.get now1 name).2.store now1 name p) name =
        (some p, (cache.get now1 name).2.store now1 name p, [])) ∧
    (getPlantInfo envAllFail 0 PlantCache.init (chars "Tomato") =
      (some tomatoRec, PlantCache.init.store 0 (chars "Tomato") tomatoRec,
       [Effect.dbQuery (chars "Tomato"), Effect.usageIncrement (chars "Tomato")]) ∧
     getPlantInfo envAllFail 3600 (PlantCache.init.store 0 (chars "Tomato") tomatoRec)
        (chars "Tomato") =
      (some tomatoRec, PlantCache.init.store 0 (chars "Tomato") tomatoRec, [])) := by
  refine ⟨rfl, ?_, ?_, ?_, ?_, rfl, rfl⟩
  · intro c now name habs
    simp only [PlantCache.get, habs]
  · intro c now name info ts hent hexp
    simp only [PlantCache.get, hent]
    rw [if_pos hexp]
  · intro c now name info ts hent hfresh
    simp only [PlantCache.get, hent]
    rw [if_neg (Nat.not_lt.mpr hfresh)]
  · intro env db cache now1 now2 name p hdb hmiss hdbp httl
    have hget2 : ∀ (c2 : PlantCache), c2.cacheDuration = cache.cacheDuration →
        (c2.store now1 name p).get now2 name = (some p, c2.store now1 name p) := by
      intro c2 hc2
      simp only [PlantCache.get, store_get_callerKey]
      rw [if_neg (by rw [store_duration, hc2]; exact Nat.not_lt.mpr httl)]
    constructor
    · simp only [getPlantInfo, hmiss, hdb, hdbp]
    · simp only [getPlantInfo, hget2 ((cache.get now1 name).2) (get_duration cache now1 name)]

/-! ## C6 -/

/-- The three aliases of the §8 normalization test. -/
def tomatoAliases : List (List Char) :=
  [chars "Tomato", chars "TOMATO", chars " Tomato "]

/-- **C6.** Batch resolution is invariant under key normalization: for any
record whose canonical name is "Tomato", resolving
`["Tomato", "TOMATO", " Tomato "]` against a store holding just that
record returns exactly `[rec]` (each alias collapses to the same
normalized key, so the aliases are all satisfied by the one batch hit),
and against a cache seeded with that record under "Tomato" every alias
hits and the same record is returned for each — one distinct entity
either way, whichever tier holds it. -/
theorem c6_normalization_invariant_resolution :
    ∀ (rec : PlantInfo) (static : List (List Char × PlantInfo))
      (llm : List Char → Option PlantInfo) (env : ResolveEnv),
    rec.name = chars "Tomato" →
    (getMultiplePlants { db := some [rec], static := static, llm := llm } 0
        PlantCache.init tomatoAliases).1 = [rec] ∧
    (getMultiplePlants env 0 (PlantCache.init.store 0 (chars "Tomato") rec)
        tomatoAliases).1 = [rec, rec, rec] ∧
    (∀ q ∈ (getMultiplePlants env 0 (PlantCache.init.store 0 (chars "Tomato") rec)
        tomatoAliases).1, q = rec) := by
  intro rec static llm env h
  have hdb : (getMultiplePlants { db := some [rec], static := static, llm := llm } 0
      PlantCache.init tomatoAliases).1 = [rec] := by
    cases rec with
    | mk nm sci pt dth sp pd sun wat ph cp av =>
      dsimp only at h
      subst h
      rfl
  have hcache : (getMultiplePlants env 0 (PlantCache.init.store 0 (chars "Tomato") rec)
      tomatoAliases).1 = [rec, rec, rec] := by
    cases rec with
    | mk nm sci pt dth sp pd sun wat ph cp av =>
      dsimp only at h
      subst h
      rfl
  refine ⟨hdb, hcache, ?_⟩
  intro q hq
  rw [hcache] at hq
  rcases List.mem_cons.mp hq with rfl | hq2
  · rfl
  · rcases List.mem_cons.mp hq2 with rfl | hq3
    · rfl
    · rcases List.mem_cons.mp hq3 with rfl | hq4
      · rfl
      · exact absurd hq4 (List.not_mem_nil q)

/-- **C6 (witness).** The normalization scenario at the concrete seeded
record. -/
theorem c6_normalization_invariant_resolution_witness :
    (getMultiplePlants { db := some [tomatoRec], static := [], llm := fun _ => none } 0
        PlantCache.init tomatoAliases).1 = [tomatoRec] ∧
    (getMultiplePlants envAllFail 0 (PlantCache.init.store 0 (chars "Tomato") tomatoRec)
        tomatoAliases).1 = [tomatoRec, tomatoRec, tomatoRec] ∧
    (∀ q ∈ (getMultiplePlants envAllFail 0
        (PlantCache.init.store 0 (chars "Tomato") tomatoRec) tomatoAliases).1,
      q = tomatoRec) :=
  c6_normalization_invariant_resolution tomatoRec [] (fun _ => none) envAllFail rfl

/-! ## C4: soundness of batch resolution when every generative call fails -/

/-- A record obtainable without the generative tier: it is a value of the
starting cache, a row of the store, or a static JSON record. -/
def fromTier (env : ResolveEnv) (base : PlantCache) (p : PlantInfo) : Prop :=
  (∃ e ∈ base.entries, e.2.1 = p) ∨
  (∃ db, env.db = some db ∧ p ∈ db) ∨
  (∃ e ∈ env.static, e.2 = p)

/-- A successful association lookup returns a stored value. -/
theorem assocGet_mem {α : Type} {m : List (List Char × α)} {k : List Char} {v : α}
    (h : assocGet m k = some v) : ∃ e ∈ m, e.2 = v := by
  unfold assocGet at h
  cases hf : List.find? (fun e => decide (e.1 = k)) m with
  | none => rw [hf] at h; simp at h
  | some e =>
    rw [hf] at h
    exact ⟨e, List.mem_of_find?_eq_some hf, Option.some.inj h⟩

/-- `assocPut` adds the new pair and otherwise keeps old entries. -/
theorem assocPut_mem {α : Type} {m : List (List Char × α)} {k : List Char} {v : α}
    {e : List Char × α} (h : e ∈ assocPut m k v) : e = (k, v) ∨ e ∈ m := by
  induction m with
  | nil => simpa [assocPut] using h
  | cons f rest ih =>
    by_cases hk : f.1 = k
    · rw [assocPut, if_pos hk] at h
      rcases List.mem_cons.mp h with rfl | hm
      · exact Or.inl rfl
      · exact Or.inr (List.mem_cons_of_mem f hm)
    · rw [assocPut, if_neg hk] at h
      rcases List.mem_cons.mp h with rfl | hm
      · exact Or.inr (List.mem_cons_self _ _)
      · rcases ih hm with h1 | h1
        · exact Or.inl h1
        · exact Or.inr (List.mem_cons_of_mem f h1)

/-- Every entry of a post-`store` cache carries the stored record or was
already present. -/
theorem store_mem {c : PlantCache} {now : Nat} {name : List Char} {p : PlantInfo}
    {e : List Char × PlantInfo × Nat} (h : e ∈ (c.store now name p).entries) :
    e.2.1 = p ∨ e ∈ c.entries := by
  unfold PlantCache.store at h
  by_cases hk : pyNormalize p.name = pyNormalize name
  · rw [if_pos hk] at h
    rcases assocPut_mem h with rfl | hm
    · exact Or.inl rfl
    · exact Or.inr hm
  · rw [if_neg hk] at h
    rcases assocPut_mem h with rfl | hm
    · exact Or.inl rfl
    · rcases assocPut_mem hm with rfl | hm2
      · exact Or.inl rfl
      · exact Or.inr hm2

/-- `get` only deletes entries. -/
theorem get_entries_subset (c : PlantCache) (now : Nat) (name : List Char) :
    ∀ e ∈ ((c.get now name).2).entries, e ∈ c.entries := by
  intro e he
  cases h : assocGet c.entries (pyNormalize name) with
  | none => simp only [PlantCache.get, h] at he; exact he
  | some q =>
    obtain ⟨info, ts⟩ := q
    simp only [PlantCache.get, h] at he
    by_cases hexp : c.cacheDuration < now - ts
    · rw [if_pos hexp] at he
      dsimp only at he
      rw [assocErase] at he
      exact List.mem_of_mem_filter he
    · rw [if_neg hexp] at he
      exact he

/-- A cache hit returns a value of the cache. -/
theorem get_hit_mem {c : PlantCache} {now : Nat} {name : List Char} {p : PlantInfo}
    (h : (c.get now name).1 = some p) : ∃ e ∈ c.entries, e.2.1 = p := by
  cases hg : assocGet c.entries (pyNormalize name) with
  | none => simp only [PlantCache.get, hg] at h; exact absurd h (by simp)
  | some q =>
    obtain ⟨info, ts⟩ := q
    simp only [PlantCache.get, hg] at h
    by_cases hexp : c.cacheDuration < now - ts
    · rw [if_pos hexp] at h
      exact absurd h (by simp)
    · rw [if_neg hexp] at h
      injection h with h2
      obtain ⟨e, he, hv⟩ := assocGet_mem hg
      exact ⟨e, he, by rw [hv, h2]⟩

/-- The single-name resolver touches no generative record when every
generative call fails: its result comes from cache, store or static data,
and the cache it returns still only holds such records. -/
theorem getPlantInfo_sound (env : ResolveEnv) (now : Nat) (cache base : PlantCache)
    (name : List Char) (hllm : env.llm = fun _ => none)
    (hinv : ∀ e ∈ cache.entries, fromTier env base e.2.1) :
    (∀ p, (getPlantInfo env now cache name).1 = some p → fromTier env base p) ∧
    (∀ e ∈ ((getPlantInfo env now cache name).2.1).entries, fromTier env base e.2.1) := by
  have hsub : ∀ e ∈ ((cache.get now name).2).entries, fromTier env base e.2.1 :=
    fun e he => hinv e (get_entries_subset cache now name e he)
  cases hget : (cache.get now name).1 with
  | some q =>
    simp only [getPlantInfo, hget]
    constructor
    · intro p hp
      injection hp with h2
      obtain ⟨e, he, hv⟩ := get_hit_mem hget
      exact h2 ▸ hv ▸ hinv e he
    · exact hsub
  | none =>
    cases hdb : env.db with
    | some db =>
      cases hfind : getPlantFromDatabase db name with
      | some q =>
        have hqdb : q ∈ db := by
          simp only [getPlantFromDatabase] at hfind
          cases hf : List.find? (fun r => decide (pyLower r.name = pyNormalize name)) db with
          | some r =>
            rw [hf] at hfind
            injection hfind with h2
            exact h2 ▸ List.mem_of_find?_eq_some hf
          | none =>
            rw [hf] at hfind
            exact List.mem_of_find?_eq_some hfind
        simp only [getPlantInfo, hget, hdb, hfind]
        constructor
        · intro p hp
          injection hp with h2
          exact h2 ▸ Or.inr (Or.inl ⟨db, hdb, hqdb⟩)
        · intro e he
          rcases store_mem he with h1 | h1
          · exact h1 ▸ Or.inr (Or.inl ⟨db, hdb, hqdb⟩)
          · exact hsub e h1
      | none =>
        simp only [getPlantInfo, hget, hdb, hfind, getPlantInfoTier3, hllm]
        exact ⟨fun p hp => absurd hp (by simp), hsub⟩
    | none =>
      cases hst : assocGet env.static (pyNormalize name) with
      | some q =>
        simp only [getPlantInfo, hget, hdb, hst]
        constructor
        · intro p hp
          injection hp with h2
          obtain ⟨e, he, hv⟩ := assocGet_mem hst
          exact Or.inr (Or.inr ⟨e, he, h2 ▸ hv⟩)
        · exact hsub
      | none =>
        simp only [getPlantInfo, hget, hdb, hst, getPlantInfoTier3, hllm]
        exact ⟨fun p hp => absurd hp (by simp), hsub⟩

/-- Soundness of the generative fan-out with every call failing. -/
theorem batchLlmTier_sound (env : ResolveEnv) (now : Nat) (base : PlantCache)
    (hllm : env.llm = fun _ => none) :
    ∀ (remaining : List (List Char)) (acc : List PlantInfo × PlantCache),
    (∀ p ∈ acc.1, fromTier env base p) →
    (∀ e ∈ acc.2.entries, fromTier env base e.2.1) →
    (∀ p ∈ (batchLlmTier env now acc remaining).1, fromTier env base p) ∧
    (∀ e ∈ ((batchLlmTier env now acc remaining).2).entries, fromTier env base e.2.1) := by
  intro remaining
  induction remaining with
  | nil => exact fun acc h1 h2 => ⟨h1, h2⟩
  | cons n rest ih =>
    intro acc h1 h2
    have hstep := getPlantInfo_sound env now acc.2 base n hllm h2
    simp only [batchLlmTier, List.foldl_cons]
    cases hg : (getPlantInfo env now acc.2 n).1 with
    | some p =>
      refine ih _ ?_ hstep.2
      intro q hq
      rcases List.mem_append.mp hq with hq1 | hq1
      · exact h1 q hq1
      · rw [List.mem_singleton.mp hq1]
        exact hstep.1 p hg
    | none => exact ih _ h1 hstep.2

/-- Soundness of the cache tier. -/
theorem batchCacheTier_sound (env : ResolveEnv) (now : Nat) (base : PlantCache) :
    ∀ (names : List (List Char)) (acc : List PlantInfo × List (List Char) × PlantCache),
    (∀ p ∈ acc.1, fromTier env base p) →
    (∀ e ∈ acc.2.2.entries, fromTier env base e.2.1) →
    (∀ p ∈ (names.foldl (fun
        (acc : List PlantInfo × List (List Char) × PlantCache) name =>
        let g := acc.2.2.get now name
        match g.1 with
        | some p => (acc.1 ++ [p], acc.2.1, g.2)
        | none => (acc.1, acc.2.1 ++ [name], g.2)) acc).1, fromTier env base p) ∧
    (∀ e ∈ ((names.foldl (fun
        (acc : List PlantInfo × List (List Char) × PlantCache) name =>
        let g := acc.2.2.get now name
        match g.1 with
        | some p => (acc.1 ++ [p], acc.2.1, g.2)
        | none => (acc.1, acc.2.1 ++ [name], g.2)) acc).2.2).entries,
      fromTier env base e.2.1) := by
  intro names
  induction names with
  | nil => exact fun acc h1 h2 => ⟨h1, h2⟩
  | cons n rest ih =>
    intro acc h1 h2
    have hsub : ∀ e ∈ ((acc.2.2.get now n).2).entries, fromTier env base e.2.1 :=
      fun e he => h2 e (get_entries_subset acc.2.2 now n e he)
    simp only [List.foldl_cons]
    cases hg : (acc.2.2.get now n).1 with
    | some p =>
      refine ih _ ?_ hsub
      intro q hq
      rcases List.mem_append.mp hq with hq1 | hq1
      · exact h1 q hq1
      · rw [List.mem_singleton.mp hq1]
        obtain ⟨e, he, hv⟩ := get_hit_mem hg
        exact hv ▸ h2 e he
    | none => exact ih _ h1 hsub

/-- Soundness of the batched write-back fold of the database tier. -/
theorem dbWriteback_sound (env : ResolveEnv) (now : Nat) (base : PlantCache)
    (db : List PlantInfo) (hdb : env.db = some db) :
    ∀ (dbPlants : List PlantInfo), (∀ q ∈ dbPlants, q ∈ db) →
    ∀ (acc : List PlantInfo × PlantCache × List (List Char)),
    (∀ p ∈ acc.1, fromTier env base p) →
    (∀ e ∈ acc.2.1.entries, fromTier env base e.2.1) →
    (∀ p ∈ (dbPlants.foldl
        (fun (acc : List PlantInfo × PlantCache × List (List Char)) p =>
          (acc.1 ++ [p], acc.2.1.store now p.name p,
           acc.2.2.filter (fun n => decide ¬(pyNormalize n = pyNormalize p.name))))
        acc).1, fromTier env base p) ∧
    (∀ e ∈ ((dbPlants.foldl
        (fun (acc : List PlantInfo × PlantCache × List (List Char)) p =>
          (acc.1 ++ [p], acc.2.1.store now p.name p,
           acc.2.2.filter (fun n => decide ¬(pyNormalize n = pyNormalize p.name))))
        acc).2.1).entries, fromTier env base e.2.1) := by
  intro dbPlants
  induction dbPlants with
  | nil => exact fun _ acc h1 h2 => ⟨h1, h2⟩
  | cons q rest ih =>
    intro hsub acc h1 h2
    have hq : fromTier env base q :=
      Or.inr (Or.inl ⟨db, hdb, hsub q (List.mem_cons_self q rest)⟩)
    simp only [List.foldl_cons]
    refine ih (fun r hr => hsub r (List.mem_cons_of_mem q hr)) _ ?_ ?_
    · intro r hr
      rcases List.mem_append.mp hr with hr1 | hr1
      · exact h1 r hr1
      · rw [List.mem_singleton.mp hr1]
        exact hq
    · intro e he
      rcases store_mem he with h3 | h3
      · exact h3 ▸ hq
      · exact h2 e h3

/-- Soundness of the static JSON fallback fold. -/
theorem staticFold_sound (env : ResolveEnv) (base : PlantCache) :
    ∀ (rem : List (List Char)) (acc : List PlantInfo × List (List Char)),
    (∀ p ∈ acc.1, fromTier env base p) →
    ∀ p ∈ (rem.foldl
        (fun (acc : List PlantInfo × List (List Char)) n =>
          match assocGet env.static (pyNormalize n) with
          | some p => (acc.1 ++ [p], acc.2 ++ [n])
          | none => acc) acc).1, fromTier env base p := by
  intro rem
  induction rem with
  | nil => exact fun acc h1 => h1
  | cons n rest ih =>
    intro acc h1
    simp only [List.foldl_cons]
    cases hst : assocGet env.static (pyNormalize n) with
    | some q =>
      refine ih _ ?_
      intro r hr
      rcases List.mem_append.mp hr with hr1 | hr1
      · exact h1 r hr1
      · rw [List.mem_singleton.mp hr1]
        obtain ⟨e, he, hv⟩ := assocGet_mem hst
        exact Or.inr (Or.inr ⟨e, he, hv⟩)
    | none => exact ih _ h1

/-- **C4.** When every generative call fails, the batch resolver never
produces a fabricated record: every returned record is a value of the
starting cache, a row of the store, or a static JSON record (the failed
generations are discarded; the resolver is a total function — the source
gathers the generation tasks with `return_exceptions=True` and keeps only
actual records). Concretely, in the all-fail scenario with only "Tomato"
seeded, resolving `["Tomato", "Lettuce"]` yields exactly the
store-resolvable subset `[Tomato]`, and an unresolvable-everywhere
request yields `[]`. -/
theorem c4_batch_resolution_discards_failures :
    (∀ (env : ResolveEnv) (now : Nat) (cache : PlantCache) (names : List (List Char)),
      env.llm = (fun _ => none) →
      ∀ p ∈ (getMultiplePlants env now cache names).1, fromTier env cache p) ∧
    (getMultiplePlants envAllFail 0 PlantCache.init
        [chars "Tomato", chars "Lettuce"]).1 = [tomatoRec] ∧
    (getMultiplePlants envAllFail 0 PlantCache.init [chars "Basil"]).1 = [] := by
  refine ⟨?_, rfl, rfl⟩
  intro env now cache names hllm p hp
  have ht1 := batchCacheTier_sound env now cache names ([], [], cache)
    (by intro q hq; simp at hq)
    (fun e he => Or.inl ⟨e, he, rfl⟩)
  simp only [getMultiplePlants] at hp
  by_cases hemp : (batchCacheTier now cache names).2.1.isEmpty
  · rw [if_pos hemp] at hp
    exact ht1.1 p hp
  · rw [if_neg hemp] at hp
    cases hdb : env.db with
    | some db =>
      simp only [hdb] at hp
      have hdbsub : ∀ q ∈ getMultiplePlantsFromDatabase db
          (batchCacheTier now cache names).2.1, q ∈ db := by
        intro q hq
        unfold getMultiplePlantsFromDatabase at hq
        by_cases he : (batchCacheTier now cache names).2.1.isEmpty
        · rw [if_pos he] at hq
          exact absurd hq (List.not_mem_nil q)
        · rw [if_neg he] at hq
          exact List.mem_of_mem_filter hq
      have ht2 := dbWriteback_sound env now cache db hdb
        (getMultiplePlantsFromDatabase db (batchCacheTier now cache names).2.1) hdbsub
        ((batchCacheTier now cache names).1, (batchCacheTier now cache names).2.2,
         (batchCacheTier now cache names).2.1)
        ht1.1 ht1.2
      exact (batchLlmTier_sound env now cache hllm _ _ ht2.1 ht2.2).1 p hp
    | none =>
      simp only [hdb] at hp
      have ht2 := staticFold_sound env cache (batchCacheTier now cache names).2.1
        ((batchCacheTier now cache names).1, ([] : List (List Char))) ht1.1
      exact (batchLlmTier_sound env now cache hllm _ _ ht2 ht1.2).1 p hp

end JardAIn
